import Mathlib

/-! Verification of process_watcher.

A shallow embedding of `main.go`: the process resolver (`FindByPid`, `FindByName`),
the liveness probe (`HealthCheck`), the notification dispatcher (`sendSlack`) and the
polling loop of `main`, followed by theorems about them.

Conventions of the embedding.

* Go strings and byte slices are `List Char` (valid UTF-8 text, one `Char` per rune).
* A Go function returning `(*T, error)` returns an `Outcome T`; a run-time panic
  (index or slice bound out of range) is the third constructor `Outcome.fault`.
* Everything the program does to the outside (spawning `ps` and `lsof`, signalling,
  reading the selection, printing, sleeping, talking to Slack) is recorded as an `Event`;
  an effectful function returns the list of events it performed, in order, next to its
  value. What the outside answers is read from a `World`.
* The `for` loop of `main` has no bound; `pollLoop` takes a fuel argument and returns
  `none` when the fuel runs out before the loop breaks.
-/

namespace ProcessWatcher

/-! ## Errors, panics and outcomes -/

/-- The two causes carried by a `*strconv.NumError`: `strconv.ErrSyntax`, `strconv.ErrRange`. -/
inductive NumErrKind where
  | ErrSyntax
  | ErrRange
  deriving DecidableEq

/-- Go `error` values that occur in the program. -/
inductive Error where
  /-- an error value made by `fmt.Errorf` in this package -/
  | errorf (msg : String)
  /-- Go `*strconv.NumError` with its `Func`, `Num` and `Err` fields -/
  | NumError (fn : String) (num : List Char) (kind : NumErrKind)
  /-- Go `bufio.ErrTooLong` -/
  | ErrTooLong
  /-- an error produced by the operating system, a child process or the Slack client -/
  | external (msg : String)
  deriving DecidableEq

/-- Line 31: `var ErrInvalidNumber = fmt.Errorf("please enter a valid number")`. -/
def ErrInvalidNumber : Error := Error.errorf "please enter a valid number"

/-- Line 32: `var ErrProcNotRunning = fmt.Errorf("error: process is not running")`. -/
def ErrProcNotRunning : Error := Error.errorf "error: process is not running"

/-- Go run-time panics the program can raise. -/
inductive Panic where
  /-- panic `index out of range [index] with length length` -/
  | indexOutOfRange (index : Int) (length : Nat)
  /-- panic `slice bounds out of range [low:length]` -/
  | sliceBoundsOutOfRange (low : Nat) (length : Nat)
  deriving DecidableEq

/-- Result of a Go function of type `(*T, error)`, or the panic that unwound it. -/
inductive Outcome (α : Type) where
  | ok (a : α)
  | err (e : Error)
  | fault (p : Panic)
  deriving DecidableEq

/-- Lines 21-25: `type Process struct`, with the embedded `*os.Process` reduced to its `Pid`. -/
structure Process where
  Pid : Int
  Tty : List Char
  Cwd : List Char
  deriving DecidableEq

/-- Lines 26-29: `type SlackMessage struct`. -/
structure SlackMessage where
  user : List Char
  token : List Char
  deriving DecidableEq

/-- The command-line flags parsed at lines 116-122. -/
structure Flags where
  pid : Int
  token : List Char
  user : List Char
  interval : Int
  name : List Char
  deriving DecidableEq

/-- Observable actions of the program. -/
inductive Event where
  /-- Go `os.FindProcess(pid)` -/
  | findProcess (pid : Int)
  /-- Go `exec.Command(cmd, args...).Output()` -/
  | exec (cmd : String) (args : List (List Char))
  /-- text written to standard output by `fmt.Printf` / `fmt.Println` -/
  | printf (text : List Char)
  /-- Go `checkErr` printing a non-nil error: `fmt.Printf("%s\n", err)` -/
  | printErr (e : Error)
  /-- Go `fmt.Fprintln(stdout, text)` on the writer handed to `FindByName` -/
  | fprintln (text : List Char)
  /-- Go `fmt.Fscanf(stdin, "%d", &procNumber)` -/
  | fscanf
  /-- Go `p.Signal(syscall.Signal(0))` on the process with this pid -/
  | signal (pid : Int)
  /-- Go `fmt.Print(proc)` -/
  | printProc (p : Process)
  /-- Go `time.Sleep(d)`, `d` in nanoseconds -/
  | sleep (d : Int)
  /-- Go `api.OpenIMChannel(userID)` on a client built from `token` -/
  | openIMChannel (token : List Char) (userID : List Char)
  /-- Go `api.PostMessage(channelID, msg, ...)` on a client built from `token` -/
  | postMessage (token : List Char) (channelID : List Char) (msg : List Char)
  /-- Go `log.Fatalf(text)`: the text goes to standard error, then `os.Exit(1)` -/
  | fatalf (text : String)
  /-- Go `log.Fatalln(err)`: the error goes to standard error, then `os.Exit(1)` -/
  | fatalln (e : Error)
  deriving DecidableEq

/-- How the program ends. -/
inductive Exit where
  /-- Go `os.Exit(code)`, or return from `main` (code 0) -/
  | status (code : Nat)
  /-- an unrecovered panic -/
  | panicked (p : Panic)
  deriving DecidableEq

/-- What the outside answers to the program's requests. -/
structure World where
  /-- Go `os.FindProcess(pid)`: the error, or `none` when a handle (with that `Pid`) is returned -/
  findProcess : Int → Option Error
  /-- Go `exec.Command(cmd, args...).Output()`: the bytes of standard output, or the error -/
  exec : String → List (List Char) → Except Error (List Char)
  /-- Go `unicode.ToLower` on runes above `unicode.MaxASCII` (the Unicode case tables) -/
  lowerTable : Char → Char
  /-- the error returned by `fmt.Fprintln(stdout, ...)`, if any -/
  promptErr : Option Error
  /-- Go `fmt.Fscanf(stdin, "%d", &procNumber)`: the integer stored in `procNumber`
  (error `nil`), or the error returned (`procNumber` is then left untouched) -/
  fscanf : Except Error Int
  /-- the error of the `i`-th call (from 0) of `p.Signal(syscall.Signal(0))`, `none` = delivered -/
  signal : Nat → Option Error
  /-- Go `api.OpenIMChannel(userID)` for a client built from the token: channel id and error -/
  openIMChannel : List Char → List Char → List Char × Option Error
  /-- Go `api.PostMessage(channelID, msg, ...)` for a client built from the token: the error -/
  postMessage : List Char → List Char → List Char → Option Error

/-! ## Library functions used by the program -/

/-- Go `unicode.IsSpace`: Latin-1 white space, then the `White_Space` table above Latin-1. -/
def IsSpace (r : Char) : Bool :=
  let c := r.toNat
  if c ≤ 255 then
    c = 9 || c = 10 || c = 11 || c = 12 || c = 13 || c = 32 || c = 133 || c = 160
  else
    c = 5760 || (8192 ≤ c && c ≤ 8202) || c = 8232 || c = 8233 || c = 8239
      || c = 8287 || c = 12288

/-- Loop of `strings.FieldsFunc`: `cur` is the field being read, reversed; a rune
satisfying `f` closes a non-empty field. -/
def fieldsFrom (f : Char → Bool) : List Char → List Char → List (List Char)
  | [], cur => if cur = [] then [] else [cur.reverse]
  | r :: rest, cur =>
    if f r then
      if cur = [] then fieldsFrom f rest [] else cur.reverse :: fieldsFrom f rest []
    else fieldsFrom f rest (r :: cur)

/-- Go `strings.FieldsFunc(s, f)`: the maximal runs of runes not satisfying `f`. -/
def FieldsFunc (s : List Char) (f : Char → Bool) : List (List Char) :=
  fieldsFrom f s []

/-- Go `strings.TrimSpace(s)`: `s` without leading and trailing `unicode.IsSpace` runes. -/
def TrimSpace (s : List Char) : List Char :=
  (((s.dropWhile IsSpace).reverse).dropWhile IsSpace).reverse

/-- Go `strings.Join(elems, sep)`. -/
def Join (elems : List (List Char)) (sep : List Char) : List Char :=
  match elems with
  | [] => []
  | first :: rest => first ++ (rest.map (fun s => sep ++ s)).flatten

/-- Go `strings.Contains(s, substr)`. -/
def Contains : List Char → List Char → Bool
  | [], substr => substr.isEmpty
  | c :: cs, substr => substr.isPrefixOf (c :: cs) || Contains cs substr

/-- Go `bytes.ToLower(s)`: ASCII letters `A`-`Z` are shifted to `a`-`z`, runes above ASCII
go through the Unicode table. -/
def ToLower (table : Char → Char) (s : List Char) : List Char :=
  s.map (fun r =>
    if r.toNat ≤ 127 then
      if 65 ≤ r.toNat ∧ r.toNat ≤ 90 then Char.ofNat (r.toNat + 32) else r
    else table r)

/-- Go `strconv.Itoa(i)` and the verb `%d`: decimal digits, with a leading `-` below zero. -/
def Itoa (i : Int) : List Char :=
  if i < 0 then '-' :: Nat.toDigits 10 i.natAbs else Nat.toDigits 10 i.toNat

/-- Digit loop of `strconv.ParseUint(s, 10, 64)`; `n` is the value read so far. -/
def parseUintFrom : List Char → Nat → Except NumErrKind Nat
  | [], n => Except.ok n
  | c :: rest, n =>
    if 48 ≤ c.toNat ∧ c.toNat ≤ 57 then
      -- cutoff = maxUint64/10 + 1
      if n ≥ (2 ^ 64 - 1) / 10 + 1 then Except.error NumErrKind.ErrRange
      else
        let n1 := n * 10 + (c.toNat - 48)
        if n1 > 2 ^ 64 - 1 then Except.error NumErrKind.ErrRange
        else parseUintFrom rest n1
    else Except.error NumErrKind.ErrSyntax

/-- Go `strconv.ParseUint(s, 10, 64)`, the error reduced to its cause. -/
def ParseUint (s : List Char) : Except NumErrKind Nat :=
  if s = [] then Except.error NumErrKind.ErrSyntax else parseUintFrom s 0

/-- Go `strconv.Atoi(s)` for a 64-bit `int`. The fast path for short strings returns what
`ParseInt(s, 10, 0)` returns, so only the latter is spelled out: an optional sign, then
`ParseUint`, then the range check against `1 << 63`. -/
def Atoi (s : List Char) : Except Error Int :=
  match s with
  | [] => Except.error (Error.NumError "Atoi" s NumErrKind.ErrSyntax)
  | c :: rest =>
    let neg : Bool := c = '-'
    let digits := if c = '+' ∨ c = '-' then rest else s
    match ParseUint digits with
    | Except.error NumErrKind.ErrSyntax =>
      Except.error (Error.NumError "Atoi" s NumErrKind.ErrSyntax)
    | Except.error NumErrKind.ErrRange =>
      Except.error (Error.NumError "Atoi" s NumErrKind.ErrRange)
    | Except.ok un =>
      if neg = false ∧ un ≥ 2 ^ 63 then
        Except.error (Error.NumError "Atoi" s NumErrKind.ErrRange)
      else if neg = true ∧ un > 2 ^ 63 then
        Except.error (Error.NumError "Atoi" s NumErrKind.ErrRange)
      else Except.ok (if neg then -(un : Int) else (un : Int))

/-- The character is one of `0` ... `9`. -/
def isDecimalDigit (c : Char) : Bool := 48 ≤ c.toNat && c.toNat ≤ 57

/-- Go `SkipSpace` of package `fmt` as run by `Fscanf`, where a line feed is not white
space: white space is skipped up to the first other rune; a line feed met on the way
(also after a carriage return) is the error "unexpected newline". The white space of
`fmt` is the set of `unicode.IsSpace`. -/
def SkipSpace : List Char → Except Error (List Char)
  | [] => Except.ok []
  | r :: rest =>
    if r = Char.ofNat 13 ∧ rest.head? = some (Char.ofNat 10) then SkipSpace rest
    else if r = Char.ofNat 10 then Except.error (Error.external "unexpected newline")
    else if IsSpace r then SkipSpace rest
    else Except.ok (r :: rest)

/-- Go `scanInt` of package `fmt` for the verb `%d` and a 64-bit `int`, on the input left
by `SkipSpace`: `notEOF`, an optional sign (`accept(sign)`), then `scanNumber`, which
wants one decimal digit and takes all that follow, then `strconv.ParseInt(tok, 10, 64)`
on the sign and digits taken. What follows the digits is left unread. -/
def scanInt (input : List Char) : Except Error Int :=
  match input with
  | [] => Except.error (Error.external "EOF")
  | c :: rest =>
    let signed : Bool := c = '+' ∨ c = '-'
    let number := if signed then rest else input
    match number with
    | [] => Except.error (Error.external "EOF")
    | d :: _ =>
      if isDecimalDigit d then
        let tok := (if signed then [c] else []) ++ number.takeWhile isDecimalDigit
        match Atoi tok with
        | Except.ok i => Except.ok i
        | Except.error (Error.NumError _ num kind) =>
          Except.error (Error.NumError "ParseInt" num kind)
        | Except.error err => Except.error err
      else Except.error (Error.external "expected integer")

/-- Go `fmt.Fscanf(stdin, "%d", &procNumber)` when `stdin` holds the text `input` (of
fewer than `1 << 30` runes): the integer stored and a `nil` error, or the error, in which
case nothing is stored. The answer `World.fscanf` of a run whose standard input holds
`input`. -/
def Fscanf (input : List Char) : Except Error Int :=
  match SkipSpace input with
  | Except.error err => Except.error err
  | Except.ok rest => scanInt rest

/-- Go `bufio.MaxScanTokenSize`. -/
def MaxScanTokenSize : Nat := 64 * 1024

/-- Length in bytes of the UTF-8 encoding. -/
def byteLen (s : List Char) : Nat := (s.map Char.utf8Size).sum

/-- Go `dropCR` of package `bufio`: drop one trailing carriage return. -/
def dropCR (data : List Char) : List Char :=
  if data.getLast? = some (Char.ofNat 13) then data.dropLast else data

/-- A `bufio.Scanner` with the default split function `bufio.ScanLines` run to the end
of its input: `cur` is the line being read, reversed. Lines end at a line feed; a last
line without line feed is a token when it is not empty; a line of `MaxScanTokenSize`
bytes or more stops the scanner with `bufio.ErrTooLong`. -/
def scanFrom : List Char → List Char → List (List Char) × Option Error
  | [], cur =>
    if cur = [] then ([], none)
    else if MaxScanTokenSize ≤ byteLen cur then ([], some Error.ErrTooLong)
    else ([dropCR cur.reverse], none)
  | c :: rest, cur =>
    if c = Char.ofNat 10 then
      if MaxScanTokenSize ≤ byteLen cur then ([], some Error.ErrTooLong)
      else ((dropCR cur.reverse) :: (scanFrom rest []).1, (scanFrom rest []).2)
    else scanFrom rest (c :: cur)

/-- The tokens `scanner.Scan()` / `scanner.Text()` yield over `input`, and `scanner.Err()`. -/
def scanLines (input : List Char) : List (List Char) × Option Error :=
  scanFrom input []

/-- Conversion to `int64` (two's complement wrap-around). -/
def wrapInt64 (x : Int) : Int := (x + 2 ^ 63) % 2 ^ 64 - 2 ^ 63

/-! ## The program -/

/-- Lines 182-186: `checkErr` prints a non-nil error and returns. -/
def checkErr (err : Option Error) : List Event :=
  match err with
  | some e => [Event.printErr e]
  | none => []

/-- Lines 51-56 of `FindByPid`: the loop over the lines of the `lsof` output; `cwd` is
the current value of `proc.Cwd`. `words[3]` panics on a line with fewer than four
fields, `words[8:]` on a `cwd` line with fewer than eight. -/
def scanCwd : List (List Char) → List Char → Except Panic (List Char)
  | [], cwd => Except.ok cwd
  | line :: rest, cwd =>
    let words := FieldsFunc line IsSpace
    match words[3]? with
    | none => Except.error (Panic.indexOutOfRange 3 words.length)
    | some w3 =>
      if w3 = "cwd".toList then
        if 8 ≤ words.length then
          scanCwd rest (TrimSpace (Join (words.drop 8) " ".toList))
        else Except.error (Panic.sliceBoundsOutOfRange 8 words.length)
      else scanCwd rest cwd

/-- Lines 34-62: `FindByPid`. -/
def FindByPid (w : World) (pid : Int) : List Event × Outcome Process :=
  match w.findProcess pid with
  | some err => ([Event.findProcess pid], Outcome.err err)
  | none =>
    let pidStr := Itoa pid
    let trace := [Event.findProcess pid, Event.exec "lsof" ["-p".toList, pidStr]]
    match w.exec "lsof" ["-p".toList, pidStr] with
    | Except.error err => (trace, Outcome.err err)
    | Except.ok lsofOutput =>
      let scanner := scanLines lsofOutput
      match scanCwd scanner.1 [] with
      | Except.error p => (trace, Outcome.fault p)
      | Except.ok cwd =>
        match scanner.2 with
        | some err => (trace, Outcome.err err)
        | none => (trace, Outcome.ok (Process.mk pid [] cwd))

/-- Lines 69-78 of `FindByName`: the candidate list `names` built from the output of
`ps -e`, and `scanner.Err()`. -/
def candidates (table : Char → Char) (psOutput : List Char) (name : List Char) :
    List (List Char) × Option Error :=
  let lowercaseOutput := ToLower table psOutput
  let scanner := scanLines lowercaseOutput
  (scanner.1.filter (fun line => Contains line name), scanner.2)

/-- Lines 83-85 of `FindByName`: `fmt.Printf("%d: %s\n", i, name)` for each candidate,
`i` counting from the given index. -/
def printNames : Nat → List (List Char) → List Event
  | _, [] => []
  | i, name :: rest =>
    Event.printf (Itoa (i : Int) ++ ": ".toList ++ name ++ "\n".toList)
      :: printNames (i + 1) rest

/-- Lines 83-91 of `FindByName`: what is printed and read between building the
candidate list and inspecting `procNumber`. -/
def promptTrace (w : World) (names : List (List Char)) : List Event :=
  printNames 0 names
    ++ [Event.fprintln "\nThe correct process number:".toList] ++ checkErr w.promptErr
    ++ [Event.fscanf]
    ++ checkErr (match w.fscanf with
        | Except.error err => some err
        | Except.ok _ => none)

/-- Lines 64-105: `FindByName`. -/
def FindByName (w : World) (name : List Char) : List Event × Outcome Process :=
  let ps := [Event.exec "ps" ["-e".toList]]
  match w.exec "ps" ["-e".toList] with
  | Except.error err => (ps, Outcome.err err)
  | Except.ok psOutput =>
    let found := candidates w.lowerTable psOutput name
    let names := found.1
    match found.2 with
    | some err => (ps, Outcome.err err)
    | none =>
      let trace := ps ++ promptTrace w names
      let procNumber : Int :=
        match w.fscanf with
        | Except.ok n => n
        | Except.error _ => -1
      if procNumber < 0 then (trace, Outcome.err ErrInvalidNumber)
      else
        match names[procNumber.toNat]? with
        | none => (trace, Outcome.fault (Panic.indexOutOfRange procNumber names.length))
        | some line =>
          match (FieldsFunc line IsSpace)[0]? with
          | none => (trace, Outcome.fault (Panic.indexOutOfRange 0 0))
          | some field =>
            match Atoi (TrimSpace field) with
            | Except.error err => (trace, Outcome.err err)
            | Except.ok pid => (trace ++ (FindByPid w pid).1, (FindByPid w pid).2)

/-- Lines 107-112: `HealthCheck`, issuing the `i`-th signal of the run. -/
def HealthCheck (w : World) (p : Process) (i : Nat) : List Event × Option Error :=
  match w.signal i with
  | some _ => ([Event.signal p.Pid], some ErrProcNotRunning)
  | none => ([Event.signal p.Pid], none)

/-- Lines 168-180: `sendSlack`. -/
def sendSlack (w : World) (slackMessage : SlackMessage) (msg : List Char) :
    List Event × Option Error :=
  let userID := slackMessage.user
  let opened := w.openIMChannel slackMessage.token userID
  let channelID := opened.1
  ([Event.openIMChannel slackMessage.token userID] ++ checkErr opened.2
      ++ [Event.postMessage slackMessage.token channelID msg],
    w.postMessage slackMessage.token channelID msg)

/-- Lines 152-165: the `for` loop of `main`. `running` is the value of the variable of
that name, `i` the number of signals sent before this iteration. `none`: out of fuel. -/
def pollLoop (w : World) (slackMessage : SlackMessage) (interval : Int) (proc : Process)
    (running : Int) : Nat → Nat → Option (List Event)
  | 0, _ => none
  | fuel + 1, i =>
    let nap := Event.sleep (wrapInt64 (1000000 * wrapInt64 interval))
    if running = 0 then
      let check := HealthCheck w proc i
      match check.2 with
      | some _ =>
        let message := "Process with pid ".toList ++ Itoa proc.Pid ++ " finished".toList
        let sent := sendSlack w slackMessage message
        some (check.1 ++ sent.1 ++ checkErr sent.2
          ++ [Event.printf "process finished\n".toList])
      | none =>
        (pollLoop w slackMessage interval proc running fuel (i + 1)).map
          (fun rest => check.1 ++ nap :: rest)
    else
      (pollLoop w slackMessage interval proc running fuel i).map (fun rest => nap :: rest)

/-- Lines 131-142 of `main`: resolution by pid when the flag is set, by name otherwise. -/
def resolve (w : World) (flags : Flags) : List Event × Outcome Process :=
  if flags.pid ≠ -1 then FindByPid w flags.pid else FindByName w flags.name

/-- Lines 114-166: `main`. -/
def main (w : World) (flags : Flags) (fuel : Nat) : Option (List Event × Exit) :=
  if flags.pid = -1 ∧ flags.name = [] then
    some ([Event.fatalf "pid or name flag not specified"], Exit.status 1)
  else
    let slackMessage := SlackMessage.mk flags.user flags.token
    let resolved := resolve w flags
    match resolved.2 with
    | Outcome.fault p => some (resolved.1, Exit.panicked p)
    | Outcome.err err => some (resolved.1 ++ [Event.fatalln err], Exit.status 1)
    | Outcome.ok proc =>
      let check := HealthCheck w proc 0
      match check.2 with
      | some err => some (resolved.1 ++ check.1 ++ [Event.fatalln err], Exit.status 1)
      | none =>
        -- var running int64
        let running : Int := 0
        match pollLoop w slackMessage flags.interval proc running fuel 1 with
        | none => none
        | some loop =>
          some (resolved.1 ++ check.1 ++ [Event.printProc proc] ++ loop, Exit.status 0)

/-! ## Vocabulary of the statements -/

/-- Recognises a liveness probe. -/
def Event.isProbe : Event → Bool
  | Event.signal _ => true
  | _ => false

/-- Recognises the two Slack calls made by `sendSlack`. -/
def Event.isSlackCall : Event → Bool
  | Event.openIMChannel _ _ => true
  | Event.postMessage _ _ _ => true
  | _ => false

/-- The text passed to `sendSlack` at line 156. -/
def finishedMessage (pid : Int) : List Char :=
  "Process with pid ".toList ++ Itoa pid ++ " finished".toList

/-- Recognises the events of process resolution (`FindByPid`, `FindByName`). -/
def Event.isResolution : Event → Bool
  | Event.findProcess _ => true
  | Event.exec _ _ => true
  | Event.printf _ => true
  | Event.printErr _ => true
  | Event.fprintln _ => true
  | Event.fscanf => true
  | _ => false

/-- Recognises the events `FindByPid` performs. -/
def Event.isFindByPid : Event → Bool
  | Event.findProcess _ => true
  | Event.exec cmd _ => cmd = "lsof"
  | _ => false

/-- Recognises `time.Sleep`. -/
def Event.isSleep : Event → Bool
  | Event.sleep _ => true
  | _ => false

/-- Recognises `fmt.Print(proc)`, the statement before the loop of `main`. -/
def Event.isPrintProc : Event → Bool
  | Event.printProc _ => true
  | _ => false

/-- The fourth white-space separated field of the line is `cwd`. -/
def isCwdLine (line : List Char) : Bool :=
  (FieldsFunc line IsSpace)[3]? = some "cwd".toList

/-- The fields from the ninth onward of the last line whose fourth field is `cwd`,
joined by single spaces; the empty string when there is no such line. -/
def lastCwd (lines : List (List Char)) : List Char :=
  (((lines.filter isCwdLine).getLast?).map
    (fun line => " ".toList.intercalate ((FieldsFunc line IsSpace).drop 8))).getD []

/-- White space other than the line feed. -/
def isBlank (c : Char) : Bool := IsSpace c && decide (c ≠ Char.ofNat 10)

/-- The longest run of an optional sign and decimal digits at the start of the input,
leading blanks apart. -/
def leadingToken (input : List Char) : List Char :=
  match input.dropWhile isBlank with
  | [] => []
  | c :: rest =>
    if c = '+' ∨ c = '-' then c :: rest.takeWhile isDecimalDigit
    else (c :: rest).takeWhile isDecimalDigit

/-- The number a string of decimal digits denotes. -/
def decimalValue (ds : List Char) : Nat :=
  Nat.ofDigits 10 ((ds.map (fun c => c.toNat - 48)).reverse)

/-! ## Concrete inputs -/

/-- An output of `ps -e`: the header and three processes. -/
def psText : List Char :=
  "  PID TTY          TIME CMD\n    1 ?        00:00:01 systemd\n".toList
    ++ "  412 pts/0    00:00:00 Sleep 100\n  413 pts/1    00:00:00 sleep 200\n".toList

/-- An output of `lsof -p`: the header, the working directory and the root directory. -/
def lsofText : List Char :=
  "COMMAND PID USER   FD   TYPE DEVICE SIZE/OFF NODE NAME\n".toList
    ++ "sleep   412 root  cwd    DIR    8,1     4096    2 /home/my dir\n".toList
    ++ "sleep   412 root  rtd    DIR    8,1     4096    2 /\n".toList

/-- A world in which every query succeeds, `Fscanf` gives `selection`, the first three
signals are delivered and the later ones are not, and posting to Slack fails. -/
def demoWorld (selection : Except Error Int) : World where
  findProcess := fun _ => none
  exec := fun cmd _ => if cmd = "ps" then Except.ok psText else Except.ok lsofText
  lowerTable := fun r => r
  promptErr := none
  fscanf := selection
  signal := fun i =>
    if i < 3 then none else some (Error.external "os: process already finished")
  openIMChannel := fun _ _ => ("D024BE91L".toList, none)
  postMessage := fun _ _ _ => some (Error.external "channel_not_found")

/-- The world `demoWorld` with a failing `lsof`. -/
def lsofDown : World where
  findProcess := fun _ => none
  exec := fun cmd _ =>
    if cmd = "ps" then Except.ok psText else Except.error (Error.external "exit status 1")
  lowerTable := fun r => r
  promptErr := none
  fscanf := Except.ok 0
  signal := fun _ => none
  openIMChannel := fun _ _ => ("D024BE91L".toList, none)
  postMessage := fun _ _ _ => none

/-- A world in which the channel cannot be opened and posting succeeds all the same. -/
def imDown : World where
  findProcess := fun _ => none
  exec := fun cmd _ => if cmd = "ps" then Except.ok psText else Except.ok lsofText
  lowerTable := fun r => r
  promptErr := none
  fscanf := Except.ok 0
  signal := fun _ => some (Error.external "os: process already finished")
  openIMChannel := fun _ _ => ([], some (Error.external "user_not_found"))
  postMessage := fun _ _ _ => none

/-- Follows the words of the specification of `FindByName`, not the code: the lines of
the output of `ps -e` that contain the pattern as a substring when letter case is
ignored on both sides, in their order. -/
def specCandidates (table : Char → Char) (psOutput : List Char) (name : List Char) :
    List (List Char) :=
  (scanLines psOutput).1.filter
    (fun line => Contains (ToLower table line) (ToLower table name))

/-- The two lines of `psText` that hold `sleep` once the text is in lower case. -/
def sleepLines : List (List Char) :=
  ["  412 pts/0    00:00:00 sleep 100".toList, "  413 pts/1    00:00:00 sleep 200".toList]

/-! ## Fields, trimming and joining -/

theorem fieldsFrom_fields (f : Char → Bool) (s : List Char) :
    ∀ cur : List Char, (∀ c ∈ cur, f c = false) →
      ∀ fld ∈ fieldsFrom f s cur, fld ≠ [] ∧ ∀ c ∈ fld, f c = false := by
  induction s with
  | nil =>
    intro cur hcur fld hfld
    by_cases hc : cur = []
    · simp [fieldsFrom, hc] at hfld
    · simp only [fieldsFrom, hc, if_false, List.mem_singleton] at hfld
      subst hfld
      exact ⟨by simpa using hc, fun c hcin => hcur c (List.mem_reverse.mp hcin)⟩
  | cons r rest ih =>
    intro cur hcur fld hfld
    by_cases hr : f r = true
    · by_cases hc : cur = []
      · simp only [fieldsFrom, hr, hc, if_true] at hfld
        exact ih [] (by simp) fld hfld
      · simp only [fieldsFrom, hr, hc, if_true, if_false, List.mem_cons] at hfld
        rcases hfld with rfl | hfld
        · exact ⟨by simpa using hc, fun c hcin => hcur c (List.mem_reverse.mp hcin)⟩
        · exact ih [] (by simp) fld hfld
    · simp only [fieldsFrom, hr] at hfld
      refine ih (r :: cur) ?_ fld hfld
      intro c hcin
      rcases List.mem_cons.mp hcin with rfl | h
      · simpa using hr
      · exact hcur c h

/-- A field returned by `FieldsFunc` is not empty and holds no separator. -/
theorem FieldsFunc_fields (s : List Char) (f : Char → Bool) :
    ∀ fld ∈ FieldsFunc s f, fld ≠ [] ∧ ∀ c ∈ fld, f c = false :=
  fieldsFrom_fields f s [] (by simp)

theorem dropWhile_of_head (p : Char → Bool) (l : List Char)
    (h : ∀ c, l.head? = some c → p c = false) : l.dropWhile p = l := by
  cases l with
  | nil => rfl
  | cons a t => simp [List.dropWhile_cons, h a rfl]

/-- The function `TrimSpace` leaves a string alone when neither end is white space. -/
theorem TrimSpace_of_ends (s : List Char)
    (hhead : ∀ c, s.head? = some c → IsSpace c = false)
    (hlast : ∀ c, s.getLast? = some c → IsSpace c = false) : TrimSpace s = s := by
  unfold TrimSpace
  rw [dropWhile_of_head IsSpace s hhead,
    dropWhile_of_head IsSpace s.reverse (by simpa [List.head?_reverse] using hlast),
    List.reverse_reverse]

theorem head?_mem (l : List Char) (c : Char) (h : l.head? = some c) : c ∈ l := by
  cases l with
  | nil => simp at h
  | cons a t => simp at h; simp [h]

theorem getLast?_mem (l : List Char) (c : Char) (h : l.getLast? = some c) : c ∈ l :=
  List.mem_of_getLast?_eq_some h

theorem TrimSpace_field (s : List Char) (fld : List Char)
    (h : fld ∈ FieldsFunc s IsSpace) : TrimSpace fld = fld :=
  TrimSpace_of_ends fld
    (fun c hc => (FieldsFunc_fields s IsSpace fld h).2 c (head?_mem fld c hc))
    (fun c hc => (FieldsFunc_fields s IsSpace fld h).2 c (getLast?_mem fld c hc))

theorem Join_cons_cons (a b : List Char) (rest : List (List Char)) (sep : List Char) :
    Join (a :: b :: rest) sep = a ++ sep ++ Join (b :: rest) sep := by
  simp [Join]

/-- The function `Join` puts the separator between consecutive elements. -/
theorem Join_eq_intercalate (elems : List (List Char)) (sep : List Char) :
    Join elems sep = sep.intercalate elems := by
  induction elems with
  | nil => rfl
  | cons a t ih =>
    cases t with
    | nil => simp [Join, List.intercalate]
    | cons b rest =>
      rw [Join_cons_cons, ih]
      simp [List.intercalate, List.intersperse_cons_cons]

theorem Join_ends (elems : List (List Char)) (sep : List Char)
    (hne : ∀ e ∈ elems, e ≠ []) :
    (∀ c, (Join elems sep).head? = some c → ∃ e ∈ elems, c ∈ e)
      ∧ (∀ c, (Join elems sep).getLast? = some c → ∃ e ∈ elems, c ∈ e) := by
  induction elems with
  | nil => simp [Join]
  | cons a t ih =>
    cases t with
    | nil =>
      refine ⟨fun c hc => ⟨a, by simp, head?_mem a c (by simpa [Join] using hc)⟩,
        fun c hc => ⟨a, by simp, getLast?_mem a c (by simpa [Join] using hc)⟩⟩
    | cons b rest =>
      have ha : a ≠ [] := hne a (by simp)
      have hb : b ≠ [] := hne b (by simp)
      have ih' := ih (fun e he => hne e (List.mem_cons_of_mem _ he))
      have hjne : Join (b :: rest) sep ≠ [] := by
        cases b with
        | nil => exact absurd rfl hb
        | cons x xs => simp [Join]
      rw [Join_cons_cons]
      constructor
      · intro c hc
        refine ⟨a, by simp, head?_mem a c ?_⟩
        cases a with
        | nil => exact absurd rfl ha
        | cons x xs => simpa using hc
      · intro c hc
        rw [List.getLast?_append] at hc
        obtain ⟨y, hy⟩ : ∃ y, (Join (b :: rest) sep).getLast? = some y := by
          cases h : (Join (b :: rest) sep).getLast? with
          | none => exact absurd (List.getLast?_eq_none_iff.mp h) hjne
          | some y => exact ⟨y, rfl⟩
        rw [hy] at hc
        simp only [Option.or_some, Option.some.injEq] at hc
        subst hc
        obtain ⟨e, he, hce⟩ := ih'.2 y hy
        exact ⟨e, List.mem_cons_of_mem _ he, hce⟩

/-- Trimming the fields of a line joined by single spaces changes nothing. -/
theorem TrimSpace_Join_fields (line : List Char) (n : Nat) :
    TrimSpace (Join ((FieldsFunc line IsSpace).drop n) " ".toList)
      = " ".toList.intercalate ((FieldsFunc line IsSpace).drop n) := by
  have hfld : ∀ e ∈ (FieldsFunc line IsSpace).drop n, e ≠ [] ∧ ∀ c ∈ e, IsSpace c = false :=
    fun e he => FieldsFunc_fields line IsSpace e (List.mem_of_mem_drop he)
  have hends := Join_ends ((FieldsFunc line IsSpace).drop n) " ".toList
    (fun e he => (hfld e he).1)
  rw [← Join_eq_intercalate]
  apply TrimSpace_of_ends
  · intro c hc
    obtain ⟨e, he, hce⟩ := hends.1 c hc
    exact (hfld e he).2 c hce
  · intro c hc
    obtain ⟨e, he, hce⟩ := hends.2 c hc
    exact (hfld e he).2 c hce

/-! ## Reading integers -/

theorem decimalValue_cons (c : Char) (rest : List Char) :
    decimalValue (c :: rest) = (c.toNat - 48) * 10 ^ rest.length + decimalValue rest := by
  simp [decimalValue, Nat.ofDigits_append, Nat.mul_comm, Nat.add_comm]

theorem parseUintFrom_digits (ds : List Char) :
    ∀ n : Nat, (∀ c ∈ ds, isDecimalDigit c = true) →
      n * 10 ^ ds.length + decimalValue ds < 2 ^ 64 →
      parseUintFrom ds n = Except.ok (n * 10 ^ ds.length + decimalValue ds) := by
  induction ds with
  | nil => intro n _ _; simp [parseUintFrom, decimalValue]
  | cons c rest ih =>
    intro n hds hlt
    have hc : 48 ≤ c.toNat ∧ c.toNat ≤ 57 := by
      simpa [isDecimalDigit] using hds c (by simp)
    have hrw : n * 10 ^ (c :: rest).length + decimalValue (c :: rest)
        = (n * 10 + (c.toNat - 48)) * 10 ^ rest.length + decimalValue rest := by
      rw [decimalValue_cons, List.length_cons, pow_succ]
      ring
    rw [hrw] at hlt ⊢
    have hpow : 1 ≤ 10 ^ rest.length := Nat.one_le_pow _ _ (by norm_num)
    have hstep : n * 10 + (c.toNat - 48) < 2 ^ 64 := by
      have : n * 10 + (c.toNat - 48) ≤ (n * 10 + (c.toNat - 48)) * 10 ^ rest.length :=
        Nat.le_mul_of_pos_right _ hpow
      omega
    have hcut : ¬ n ≥ (2 ^ 64 - 1) / 10 + 1 := by
      norm_num at hstep ⊢
      omega
    have hmax : ¬ n * 10 + (c.toNat - 48) > 2 ^ 64 - 1 := by
      norm_num at hstep ⊢
      omega
    simp only [parseUintFrom, hc, and_self, if_true, hcut, if_false, hmax]
    exact ih _ (fun x hx => hds x (List.mem_cons_of_mem _ hx)) hlt

theorem ParseUint_digits (ds : List Char) (hne : ds ≠ [])
    (hds : ∀ c ∈ ds, isDecimalDigit c = true) (hlt : decimalValue ds < 2 ^ 64) :
    ParseUint ds = Except.ok (decimalValue ds) := by
  have := parseUintFrom_digits ds 0 hds (by simpa using hlt)
  simpa [ParseUint, hne] using this

/-- The function `Atoi` reads an optionally signed string of decimal digits as the integer it
denotes, when that integer fits in 64 bits. -/
theorem Atoi_decimal (sgn ds : List Char) (p : Int)
    (hsgn : sgn = [] ∨ sgn = "+".toList ∨ sgn = "-".toList)
    (hne : ds ≠ [])
    (hds : ∀ c ∈ ds, isDecimalDigit c = true)
    (hp : p = if sgn = "-".toList then -(decimalValue ds : Int) else (decimalValue ds : Int))
    (hlo : -(2 : Int) ^ 63 ≤ p) (hhi : p < (2 : Int) ^ 63) :
    Atoi (sgn ++ ds) = Except.ok p := by
  have hv : decimalValue ds ≤ 2 ^ 63 := by
    split at hp <;> omega
  have hparse := ParseUint_digits ds hne hds (by omega)
  rcases hsgn with rfl | rfl | rfl
  · obtain ⟨c, rest, rfl⟩ := List.exists_cons_of_ne_nil hne
    have hc : 48 ≤ c.toNat ∧ c.toNat ≤ 57 := by
      simpa [isDecimalDigit] using hds c (by simp)
    have h1 : c ≠ '+' := by rintro rfl; simp at hc
    have h2 : c ≠ '-' := by rintro rfl; simp at hc
    have hp' : p = (decimalValue (c :: rest) : Int) := by simpa using hp
    have hlt : ¬ (2 : Nat) ^ 63 ≤ decimalValue (c :: rest) := by
      intro h; have : (2 : Int) ^ 63 ≤ (decimalValue (c :: rest) : Int) := by exact_mod_cast h
      omega
    simp [Atoi, h1, h2, hparse, hlt, hp']
    omega
  · have hp' : p = (decimalValue ds : Int) := by simpa using hp
    have hlt : ¬ (2 : Nat) ^ 63 ≤ decimalValue ds := by
      intro h; have : (2 : Int) ^ 63 ≤ (decimalValue ds : Int) := by exact_mod_cast h
      omega
    simp [Atoi, hparse, hlt, hp']
    omega
  · have hp' : p = -(decimalValue ds : Int) := by simpa using hp
    have hlt : ¬ (2 : Nat) ^ 63 < decimalValue ds := by omega
    simp [Atoi, hparse, hlt, hp']
    omega

/-- An error of `Atoi` is a `*strconv.NumError` naming `Atoi` and the string. -/
theorem Atoi_error (s : List Char) (err : Error) (h : Atoi s = Except.error err) :
    ∃ kind, err = Error.NumError "Atoi" s kind := by
  unfold Atoi at h
  split at h
  · exact ⟨_, by injection h with h; exact h.symm⟩
  · dsimp only at h
    split at h
    · exact ⟨_, by injection h with h; exact h.symm⟩
    · exact ⟨_, by injection h with h; exact h.symm⟩
    · split at h
      · exact ⟨_, by injection h with h; exact h.symm⟩
      · split at h
        · exact ⟨_, by injection h with h; exact h.symm⟩
        · exact absurd h (by simp)

/-! ## Traces of process resolution -/

theorem printNames_resolution (names : List (List Char)) :
    ∀ i, ∀ e ∈ printNames i names, e.isResolution = true ∧ e.isFindByPid = false := by
  induction names with
  | nil => intro i e he; simp [printNames] at he
  | cons a rest ih =>
    intro i e he
    simp only [printNames, List.mem_cons] at he
    rcases he with rfl | he
    · exact ⟨rfl, rfl⟩
    · exact ih _ e he

theorem checkErr_resolution (err : Option Error) :
    ∀ e ∈ checkErr err, e.isResolution = true ∧ e.isFindByPid = false := by
  intro e he
  cases err with
  | none => simp [checkErr] at he
  | some x =>
    simp only [checkErr, List.mem_singleton] at he
    subst he
    exact ⟨rfl, rfl⟩

theorem promptTrace_resolution (w : World) (names : List (List Char)) :
    ∀ e ∈ promptTrace w names, e.isResolution = true ∧ e.isFindByPid = false := by
  intro e he
  simp only [promptTrace, List.mem_append, List.mem_singleton] at he
  rcases he with (((he | rfl) | he) | rfl) | he
  · exact printNames_resolution names 0 e he
  · exact ⟨rfl, rfl⟩
  · exact checkErr_resolution _ e he
  · exact ⟨rfl, rfl⟩
  · exact checkErr_resolution _ e he

theorem FindByPid_trace (w : World) (pid : Int) :
    (FindByPid w pid).1 = [Event.findProcess pid]
      ∨ (FindByPid w pid).1
          = [Event.findProcess pid, Event.exec "lsof" ["-p".toList, Itoa pid]] := by
  unfold FindByPid
  cases w.findProcess pid with
  | some e => exact Or.inl rfl
  | none =>
    right
    dsimp only
    cases w.exec "lsof" ["-p".toList, Itoa pid] with
    | error e => rfl
    | ok out =>
      dsimp only
      cases scanCwd (scanLines out).1 [] with
      | error p => rfl
      | ok cwd =>
        dsimp only
        cases (scanLines out).2 <;> rfl

theorem FindByPid_resolution (w : World) (pid : Int) :
    ∀ e ∈ (FindByPid w pid).1, e.isResolution = true := by
  intro e he
  rcases FindByPid_trace w pid with h | h <;> rw [h] at he <;>
    simp only [List.mem_cons, List.mem_singleton, List.not_mem_nil, or_false] at he
  · subst he; rfl
  · rcases he with rfl | rfl <;> rfl

theorem FindByName_trace (w : World) (name : List Char) :
    (FindByName w name).1 = [Event.exec "ps" ["-e".toList]]
      ∨ (∃ names, (FindByName w name).1
          = [Event.exec "ps" ["-e".toList]] ++ promptTrace w names)
      ∨ (∃ names pid, (FindByName w name).1
          = [Event.exec "ps" ["-e".toList]] ++ promptTrace w names ++ (FindByPid w pid).1) := by
  unfold FindByName
  cases w.exec "ps" ["-e".toList] with
  | error e => exact Or.inl rfl
  | ok psOutput =>
    dsimp only
    cases (candidates w.lowerTable psOutput name).2 with
    | some e => exact Or.inl rfl
    | none =>
      dsimp only
      split
      · exact Or.inr (Or.inl ⟨_, rfl⟩)
      · cases (candidates w.lowerTable psOutput name).1[Int.toNat _]? with
        | none => exact Or.inr (Or.inl ⟨_, rfl⟩)
        | some line =>
          dsimp only
          cases (FieldsFunc line IsSpace)[0]? with
          | none => exact Or.inr (Or.inl ⟨_, rfl⟩)
          | some field =>
            dsimp only
            cases Atoi (TrimSpace field) with
            | error e => exact Or.inr (Or.inl ⟨_, rfl⟩)
            | ok pid => exact Or.inr (Or.inr ⟨_, _, rfl⟩)

theorem FindByName_resolution (w : World) (name : List Char) :
    ∀ e ∈ (FindByName w name).1, e.isResolution = true := by
  intro e he
  rcases FindByName_trace w name with h | ⟨names, h⟩ | ⟨names, pid, h⟩ <;> rw [h] at he <;>
    simp only [List.mem_append, List.mem_singleton] at he
  · subst he; rfl
  · rcases he with rfl | he
    · rfl
    · exact (promptTrace_resolution w _ e he).1
  · rcases he with (rfl | he) | he
    · rfl
    · exact (promptTrace_resolution w _ e he).1
    · exact FindByPid_resolution w _ e he

theorem resolve_resolution (w : World) (flags : Flags) :
    ∀ e ∈ (resolve w flags).1, e.isResolution = true := by
  intro e he
  unfold resolve at he
  split at he
  · exact FindByPid_resolution w _ e he
  · exact FindByName_resolution w _ e he

theorem filter_probe_of_resolution (tr : List Event)
    (h : ∀ e ∈ tr, e.isResolution = true) : tr.filter Event.isProbe = [] := by
  rw [List.filter_eq_nil_iff]
  intro e he
  have := h e he
  cases e <;> simp_all [Event.isResolution, Event.isProbe]

theorem filter_slack_of_resolution (tr : List Event)
    (h : ∀ e ∈ tr, e.isResolution = true) : tr.filter Event.isSlackCall = [] := by
  rw [List.filter_eq_nil_iff]
  intro e he
  have := h e he
  cases e <;> simp_all [Event.isResolution, Event.isSlackCall]

theorem filter_printProc_of_resolution (tr : List Event)
    (h : ∀ e ∈ tr, e.isResolution = true) : tr.filter Event.isPrintProc = [] := by
  rw [List.filter_eq_nil_iff]
  intro e he
  have := h e he
  cases e <;> simp_all [Event.isResolution, Event.isPrintProc]

theorem filter_sleep_of_resolution (tr : List Event)
    (h : ∀ e ∈ tr, e.isResolution = true) : tr.filter Event.isSleep = [] := by
  rw [List.filter_eq_nil_iff]
  intro e he
  have := h e he
  cases e <;> simp_all [Event.isResolution, Event.isSleep]

/-- C9. When start-up fails (neither `-pid` nor `-name` is given, or resolution returns
an error, or resolution succeeds and the first signal is not delivered, so that the initial
`HealthCheck` returns `ErrProcNotRunning`), `main` ends with exit status 1 whatever
the fuel, also with none, so the loop is not entered. Its trace ends with the `log.Fatal`
call; it holds no Slack call, no sleep, no `fmt.Print(proc)` (the statement right before
the loop) and at most one probe (the start-up check). -/
theorem main_startup_failure (w : World) (flags : Flags)
    (h : (flags.pid = -1 ∧ flags.name = [])
      ∨ (∃ err, (resolve w flags).2 = Outcome.err err)
      ∨ (∃ proc, (resolve w flags).2 = Outcome.ok proc ∧ w.signal 0 ≠ none)) :
    ∃ tr last, (∀ fuel, main w flags fuel = some (tr ++ [last], Exit.status 1))
      ∧ (last = Event.fatalf "pid or name flag not specified"
          ∨ ∃ err, last = Event.fatalln err)
      ∧ (tr ++ [last]).filter Event.isSlackCall = []
      ∧ (tr ++ [last]).filter Event.isSleep = []
      ∧ (tr ++ [last]).filter Event.isPrintProc = []
      ∧ ((tr ++ [last]).filter Event.isProbe).length ≤ 1 := by
  by_cases hflags : flags.pid = -1 ∧ flags.name = []
  · refine ⟨[], _, fun fuel => by simp [main, hflags], Or.inl rfl, rfl, rfl, rfl,
      by simp [Event.isProbe]⟩
  · rcases h with h | ⟨err, herr⟩ | ⟨proc, hok, hsig⟩
    · exact absurd h hflags
    · have hres := resolve_resolution w flags
      refine ⟨(resolve w flags).1, Event.fatalln err,
        fun fuel => by simp [main, hflags, herr], Or.inr ⟨err, rfl⟩, ?_, ?_, ?_, ?_⟩
      · simp [List.filter_append, filter_slack_of_resolution _ hres, Event.isSlackCall]
      · simp [List.filter_append, filter_sleep_of_resolution _ hres, Event.isSleep]
      · simp [List.filter_append, filter_printProc_of_resolution _ hres, Event.isPrintProc]
      · simp [List.filter_append, filter_probe_of_resolution _ hres, Event.isProbe]
    · have hres := resolve_resolution w flags
      obtain ⟨x, hx⟩ : ∃ x, w.signal 0 = some x := Option.ne_none_iff_exists'.mp hsig
      refine ⟨(resolve w flags).1 ++ [Event.signal proc.Pid], Event.fatalln ErrProcNotRunning,
        fun fuel => by simp [main, hflags, hok, HealthCheck, hx], Or.inr ⟨_, rfl⟩, ?_, ?_, ?_, ?_⟩
      · simp [List.filter_append, filter_slack_of_resolution _ hres, Event.isSlackCall]
      · simp [List.filter_append, filter_sleep_of_resolution _ hres, Event.isSleep]
      · simp [List.filter_append, filter_printProc_of_resolution _ hres, Event.isPrintProc]
      · simp [List.filter_append, filter_probe_of_resolution _ hres, Event.isProbe]

/-! ## The scan of the lsof output -/

theorem scanCwd_spec (lines : List (List Char)) :
    ∀ cwd : List Char,
    (∀ line ∈ lines, 4 ≤ (FieldsFunc line IsSpace).length) →
    (∀ line ∈ lines, isCwdLine line = true → 8 ≤ (FieldsFunc line IsSpace).length) →
    scanCwd lines cwd = Except.ok ((((lines.filter isCwdLine).getLast?).map
      (fun line => " ".toList.intercalate ((FieldsFunc line IsSpace).drop 8))).getD cwd) := by
  induction lines with
  | nil => intro cwd _ _; rfl
  | cons line rest ih =>
    intro cwd h4 h8
    have h4r : ∀ l ∈ rest, 4 ≤ (FieldsFunc l IsSpace).length :=
      fun l hl => h4 l (List.mem_cons_of_mem _ hl)
    have h8r : ∀ l ∈ rest, isCwdLine l = true → 8 ≤ (FieldsFunc l IsSpace).length :=
      fun l hl => h8 l (List.mem_cons_of_mem _ hl)
    have hlen : 3 < (FieldsFunc line IsSpace).length := h4 line (by simp)
    have hget : (FieldsFunc line IsSpace)[3]? = some ((FieldsFunc line IsSpace)[3]) :=
      List.getElem?_eq_getElem hlen
    by_cases hcwd : isCwdLine line = true
    · have h3 : (FieldsFunc line IsSpace)[3] = "cwd".toList := by
        have := hcwd
        simp only [isCwdLine, hget, decide_eq_true_eq, Option.some.injEq] at this
        exact this
      have hlen8 : 8 ≤ (FieldsFunc line IsSpace).length := h8 line (by simp) hcwd
      simp only [scanCwd, hget, h3, if_true, hlen8, TrimSpace_Join_fields]
      rw [ih _ h4r h8r, List.filter_cons_of_pos hcwd, List.getLast?_cons]
      cases (List.filter isCwdLine rest).getLast? <;> rfl
    · have h3 : (FieldsFunc line IsSpace)[3] ≠ "cwd".toList := by
        intro h
        apply hcwd
        simp [isCwdLine, hget, h]
      simp only [scanCwd, hget, h3, if_false]
      rw [ih _ h4r h8r, List.filter_cons_of_neg hcwd]

/-- C10. When every line the scanner yields over the `lsof` output has at least four
white-space separated fields, and every such line whose fourth field is `cwd` has at
least eight, the loop of `FindByPid` raises no panic and leaves in `Cwd` the fields from
the ninth onward of the last `cwd` line joined by single spaces (the empty string when
that line has eight fields or when there is no `cwd` line); `FindByPid` returns the
process with that `Cwd`, unless the scanner itself reports an error. -/
theorem FindByPid_cwd (w : World) (pid : Int) (lsofOutput : List Char)
    (hfind : w.findProcess pid = none)
    (hlsof : w.exec "lsof" ["-p".toList, Itoa pid] = Except.ok lsofOutput)
    (h4 : ∀ line ∈ (scanLines lsofOutput).1, 4 ≤ (FieldsFunc line IsSpace).length)
    (h8 : ∀ line ∈ (scanLines lsofOutput).1,
      (FieldsFunc line IsSpace)[3]? = some "cwd".toList →
        8 ≤ (FieldsFunc line IsSpace).length) :
    scanCwd (scanLines lsofOutput).1 [] = Except.ok (lastCwd (scanLines lsofOutput).1)
      ∧ (FindByPid w pid).2
          = (match (scanLines lsofOutput).2 with
            | some err => Outcome.err err
            | none => Outcome.ok (Process.mk pid [] (lastCwd (scanLines lsofOutput).1)))
      ∧ ((∀ line ∈ (scanLines lsofOutput).1, isCwdLine line = false) →
          lastCwd (scanLines lsofOutput).1 = [])
      ∧ (∀ line, ((scanLines lsofOutput).1.filter isCwdLine).getLast? = some line →
          (FieldsFunc line IsSpace).length = 8 → lastCwd (scanLines lsofOutput).1 = []) := by
  have hscan := scanCwd_spec (scanLines lsofOutput).1 [] h4
    (fun line hl hc => h8 line hl (by simpa [isCwdLine] using hc))
  refine ⟨hscan, ?_, ?_, ?_⟩
  · simp only [FindByPid, hfind, hlsof, hscan, lastCwd]
    cases (scanLines lsofOutput).2 <;> rfl
  · intro hno
    have : (scanLines lsofOutput).1.filter isCwdLine = [] := by
      rw [List.filter_eq_nil_iff]
      intro l hl
      simp [hno l hl]
    simp [lastCwd, this]
  · intro line hlast hlen
    simp [lastCwd, hlast, List.drop_of_length_le (le_of_eq hlen), List.intercalate]

/-! ## Resolution by name, by pid, and dispatch -/

/-- The function `FindByName` once `ps -e` has answered and the scanner found no error, when the
selection is negative or was not read. -/
theorem FindByName_invalid (w : World) (name psOutput : List Char)
    (names : List (List Char))
    (hps : w.exec "ps" ["-e".toList] = Except.ok psOutput)
    (hcand : candidates w.lowerTable psOutput name = (names, none))
    (hsel : (∃ err, w.fscanf = Except.error err) ∨ (∃ k, w.fscanf = Except.ok k ∧ k < 0)) :
    FindByName w name
      = ([Event.exec "ps" ["-e".toList]] ++ promptTrace w names,
         Outcome.err ErrInvalidNumber) := by
  rcases hsel with ⟨err, he⟩ | ⟨k, hk, hneg⟩
  · simp only [FindByName, hps, hcand, he]
    simp
  · simp only [FindByName, hps, hcand, hk, hneg, if_true]

/-- The function `FindByName` once an in-bounds line with a first field has been selected. -/
theorem FindByName_selected (w : World) (name psOutput : List Char)
    (names : List (List Char)) (k : Int) (line field : List Char) (rest : List (List Char))
    (hps : w.exec "ps" ["-e".toList] = Except.ok psOutput)
    (hcand : candidates w.lowerTable psOutput name = (names, none))
    (hsel : w.fscanf = Except.ok k) (hk : 0 ≤ k)
    (hline : names[k.toNat]? = some line)
    (hfield : FieldsFunc line IsSpace = field :: rest) :
    FindByName w name
      = (match Atoi field with
        | Except.error err =>
          ([Event.exec "ps" ["-e".toList]] ++ promptTrace w names, Outcome.err err)
        | Except.ok pid =>
          ([Event.exec "ps" ["-e".toList]] ++ promptTrace w names ++ (FindByPid w pid).1,
            (FindByPid w pid).2)) := by
  have htrim : TrimSpace field = field :=
    TrimSpace_field line field (by rw [hfield]; simp)
  have hk' : ¬ k < 0 := by omega
  simp only [FindByName, hps, hcand, hsel, hk', if_false, hline, hfield,
    List.getElem?_cons_zero, htrim]

theorem no_FindByPid_before_selection (w : World) (names : List (List Char)) :
    ∀ e ∈ [Event.exec "ps" ["-e".toList]] ++ promptTrace w names, e.isFindByPid = false := by
  intro e he
  simp only [List.mem_append, List.mem_singleton] at he
  rcases he with rfl | he
  · rfl
  · exact (promptTrace_resolution w names e he).2

/-- C3. When the selection `k` read from the input is inside the candidate list
(`0 ≤ k` and the list has a `k`-th entry) and the first field of the `k`-th candidate
is a decimal integer token (an optional sign, then digits) denoting `p`, with `p` in the
range of a 64-bit `int`, `FindByName` does what `FindByPid(p)` does after the listing
and the prompt, and returns its result. -/
theorem FindByName_selects_pid (w : World) (name psOutput : List Char)
    (names : List (List Char)) (k : Int) (line sgn ds : List Char) (rest : List (List Char))
    (p : Int)
    (hps : w.exec "ps" ["-e".toList] = Except.ok psOutput)
    (hcand : candidates w.lowerTable psOutput name = (names, none))
    (hsel : w.fscanf = Except.ok k) (hk : 0 ≤ k)
    (hline : names[k.toNat]? = some line)
    (hfield : FieldsFunc line IsSpace = (sgn ++ ds) :: rest)
    (hsgn : sgn = [] ∨ sgn = "+".toList ∨ sgn = "-".toList)
    (hne : ds ≠ [])
    (hds : ∀ c ∈ ds, isDecimalDigit c = true)
    (hp : p = if sgn = "-".toList then -(decimalValue ds : Int) else (decimalValue ds : Int))
    (hlo : -(2 : Int) ^ 63 ≤ p) (hhi : p < (2 : Int) ^ 63) :
    FindByName w name
        = ([Event.exec "ps" ["-e".toList]] ++ promptTrace w names ++ (FindByPid w p).1,
           (FindByPid w p).2) := by
  rw [FindByName_selected w name psOutput names k line (sgn ++ ds) rest hps hcand hsel hk
    hline hfield, Atoi_decimal sgn ds p hsgn hne hds hp hlo hhi]

theorem SkipSpace_dropWhile (input : List Char) :
    SkipSpace input
      = (match input.dropWhile isBlank with
        | [] => Except.ok []
        | c :: rest =>
          if c = Char.ofNat 10 then Except.error (Error.external "unexpected newline")
          else Except.ok (c :: rest)) := by
  induction input with
  | nil => rfl
  | cons r rest ih =>
    by_cases hnl : r = Char.ofNat 10
    · subst hnl
      have h1 : isBlank (Char.ofNat 10) = false := by decide
      have h2 : ¬ (Char.ofNat 10 = Char.ofNat 13 ∧ rest.head? = some (Char.ofNat 10)) := by
        rintro ⟨h, _⟩
        exact absurd h (by decide)
      simp only [SkipSpace, h2, if_false, if_true, List.dropWhile_cons, h1, Bool.false_eq_true]
    · by_cases hsp : IsSpace r = true
      · have h1 : isBlank r = true := by simp [isBlank, hsp, hnl]
        simp only [SkipSpace, hnl, hsp, if_true, if_false, ite_self, List.dropWhile_cons, h1]
        exact ih
      · have h1 : isBlank r = false := by simp [isBlank, hsp]
        have h2 : ¬ (r = Char.ofNat 13 ∧ rest.head? = some (Char.ofNat 10)) := by
          rintro ⟨h, _⟩
          subst h
          exact hsp (by decide)
        simp only [SkipSpace, h2, hnl, hsp, if_false, List.dropWhile_cons, h1,
          Bool.false_eq_true]

theorem scanInt_ok (input : List Char) (k : Int) (h : scanInt input = Except.ok k) :
    Atoi (match input with
      | [] => []
      | c :: rest =>
        if c = '+' ∨ c = '-' then c :: rest.takeWhile isDecimalDigit
        else (c :: rest).takeWhile isDecimalDigit) = Except.ok k := by
  cases input with
  | nil => simp [scanInt] at h
  | cons c rest =>
    by_cases hs : c = '+' ∨ c = '-'
    · simp only [scanInt, hs, decide_True, if_true] at h
      cases rest with
      | nil => simp at h
      | cons d tail =>
        simp only at h
        split at h
        · simp only [hs, if_true]
          simp only [List.singleton_append] at h
          split at h
          · rename_i i hi
            rw [hi]
            exact h
          · exact absurd h (by simp)
          · exact absurd h (by simp)
        · exact absurd h (by simp)
    · simp only [scanInt, hs, decide_False, if_false, Bool.false_eq_true] at h
      split at h
      · simp only [hs, if_false]
        simp only [List.nil_append] at h
        split at h
        · rename_i i hi
          rw [hi]
          exact h
        · exact absurd h (by simp)
        · exact absurd h (by simp)
      · exact absurd h (by simp)

/-- When `Fscanf` stores an integer, it is the one `Atoi` reads from the leading run of
sign and digits of the input. -/
theorem Fscanf_ok (input : List Char) (k : Int) (h : Fscanf input = Except.ok k) :
    Atoi (leadingToken input) = Except.ok k := by
  unfold Fscanf at h
  rw [SkipSpace_dropWhile] at h
  unfold leadingToken
  cases hb : input.dropWhile isBlank with
  | nil =>
    rw [hb] at h
    simp [scanInt] at h
  | cons c rest =>
    rw [hb] at h
    by_cases hc : c = Char.ofNat 10
    · simp [hc] at h
    · simp only [hc, if_false] at h
      exact scanInt_ok (c :: rest) k h

/-- C5 as amended. Let the standard input hold `input` when `Fscanf` is called. When
the leading run of sign and digits of `input` (leading blanks apart) is not the text of an
integer (`Atoi` rejects it: no digit at all, or a number outside 64 bits), or is the
text of a negative integer, `FindByName` returns `ErrInvalidNumber` right after the
prompt: the candidate list is not indexed (no panic) and `FindByPid` is not called.
What follows the digits plays no part. -/
theorem FindByName_rejects_invalid_input (w : World) (name psOutput : List Char)
    (names : List (List Char)) (input : List Char)
    (hps : w.exec "ps" ["-e".toList] = Except.ok psOutput)
    (hcand : candidates w.lowerTable psOutput name = (names, none))
    (hin : w.fscanf = Fscanf input)
    (hbad : (∃ err, Atoi (leadingToken input) = Except.error err)
      ∨ (∃ k, Atoi (leadingToken input) = Except.ok k ∧ k < 0)) :
    (FindByName w name).2 = Outcome.err ErrInvalidNumber
      ∧ (FindByName w name).1 = [Event.exec "ps" ["-e".toList]] ++ promptTrace w names
      ∧ ∀ e ∈ (FindByName w name).1, e.isFindByPid = false := by
  have hsel : (∃ err, w.fscanf = Except.error err) ∨ (∃ k, w.fscanf = Except.ok k ∧ k < 0) := by
    rw [hin]
    cases hf : Fscanf input with
    | error err => exact Or.inl ⟨err, rfl⟩
    | ok k =>
      have hk := Fscanf_ok input k hf
      rcases hbad with ⟨err, he⟩ | ⟨k2, hk2, hneg⟩
      · rw [hk] at he
        exact absurd he (by simp)
      · rw [hk] at hk2
        injection hk2 with hk2
        subst hk2
        exact Or.inr ⟨k, rfl, hneg⟩
  rw [FindByName_invalid w name psOutput names hps hcand hsel]
  exact ⟨rfl, rfl, no_FindByPid_before_selection w names⟩

/-- C6 as amended. When the selection `k` is inside the candidate list (`0 ≤ k` and
the list has a `k`-th entry) and `Atoi` rejects the first field of the selected line,
`FindByName` returns the error of `Atoi`, a `*strconv.NumError` naming that field, which
is not `ErrInvalidNumber`; `FindByPid` is not called. -/
theorem FindByName_unparsable_pid (w : World) (name psOutput : List Char)
    (names : List (List Char)) (k : Int) (line field : List Char) (rest : List (List Char))
    (err : Error)
    (hps : w.exec "ps" ["-e".toList] = Except.ok psOutput)
    (hcand : candidates w.lowerTable psOutput name = (names, none))
    (hsel : w.fscanf = Except.ok k) (hk : 0 ≤ k)
    (hline : names[k.toNat]? = some line)
    (hfield : FieldsFunc line IsSpace = field :: rest)
    (hparse : Atoi field = Except.error err) :
    (FindByName w name).2 = Outcome.err err
      ∧ (∃ kind, err = Error.NumError "Atoi" field kind)
      ∧ err ≠ ErrInvalidNumber
      ∧ ∀ e ∈ (FindByName w name).1, e.isFindByPid = false := by
  rw [FindByName_selected w name psOutput names k line field rest hps hcand hsel hk
    hline hfield, hparse]
  obtain ⟨kind, rfl⟩ := Atoi_error field err hparse
  exact ⟨rfl, ⟨kind, rfl⟩, by simp [ErrInvalidNumber], no_FindByPid_before_selection w names⟩

/-- C7 as amended. When `os.FindProcess` succeeds and `lsof` fails, `FindByPid` returns
the error of `lsof` and no process. -/
theorem FindByPid_lsof_error (w : World) (pid : Int) (err : Error)
    (hfind : w.findProcess pid = none)
    (hlsof : w.exec "lsof" ["-p".toList, Itoa pid] = Except.error err) :
    FindByPid w pid
      = ([Event.findProcess pid, Event.exec "lsof" ["-p".toList, Itoa pid]],
         Outcome.err err) := by
  simp only [FindByPid, hfind, hlsof]

/-- C8 as amended. `sendSlack` always makes both calls, `OpenIMChannel` then
`PostMessage` on the channel id the first call returned; an error of `OpenIMChannel` is
printed and otherwise ignored; the value returned is the error of `PostMessage`, so
`sendSlack` fails exactly when `PostMessage` fails. -/
theorem sendSlack_returns_post_error (w : World) (sm : SlackMessage) (msg : List Char) :
    (sendSlack w sm msg).2
        = w.postMessage sm.token (w.openIMChannel sm.token sm.user).1 msg
      ∧ (sendSlack w sm msg).1
        = [Event.openIMChannel sm.token sm.user]
          ++ (match (w.openIMChannel sm.token sm.user).2 with
            | some err => [Event.printErr err]
            | none => [])
          ++ [Event.postMessage sm.token (w.openIMChannel sm.token sm.user).1 msg] := by
  refine ⟨rfl, ?_⟩
  simp only [sendSlack, checkErr]

/-! ## The polling loop -/

theorem checkErr_filter_probe (e : Option Error) : (checkErr e).filter Event.isProbe = [] := by
  cases e <;> rfl

theorem checkErr_filter_slack (e : Option Error) :
    (checkErr e).filter Event.isSlackCall = [] := by
  cases e <;> rfl

theorem quiet_filter_probe (pid d : Int) (n : Nat) :
    ((List.replicate n [Event.signal pid, Event.sleep d]).flatten).filter Event.isProbe
      = List.replicate n (Event.signal pid) := by
  induction n with
  | zero => rfl
  | succ n ih =>
    simp only [List.replicate_succ, List.flatten_cons, List.filter_append, ih]
    rfl

theorem quiet_filter_slack (pid d : Int) (n : Nat) :
    ((List.replicate n [Event.signal pid, Event.sleep d]).flatten).filter Event.isSlackCall
      = [] := by
  induction n with
  | zero => rfl
  | succ n ih =>
    simp only [List.replicate_succ, List.flatten_cons, List.filter_append, ih]
    rfl

/-- The loop, started before signal number `start` with `running = 0`, when the next
`n` probes succeed and the one after fails. -/
theorem pollLoop_trace (w : World) (sm : SlackMessage) (interval : Int) (proc : Process)
    (n : Nat) : ∀ (start fuel : Nat),
    (∀ i, i < n → w.signal (start + i) = none) →
    w.signal (start + n) ≠ none →
    n < fuel →
    pollLoop w sm interval proc 0 fuel start
      = some ((List.replicate n [Event.signal proc.Pid,
            Event.sleep (wrapInt64 (1000000 * wrapInt64 interval))]).flatten
          ++ ([Event.signal proc.Pid] ++ (sendSlack w sm (finishedMessage proc.Pid)).1
            ++ checkErr (sendSlack w sm (finishedMessage proc.Pid)).2
            ++ [Event.printf "process finished\n".toList])) := by
  induction n with
  | zero =>
    intro start fuel _ hdead hfuel
    obtain ⟨fuel, rfl⟩ : ∃ k, fuel = k + 1 := ⟨fuel - 1, by omega⟩
    cases hs : w.signal start with
    | none => exact absurd hs (by simpa using hdead)
    | some e => simp [pollLoop, HealthCheck, hs, finishedMessage]
  | succ n ih =>
    intro start fuel halive hdead hfuel
    obtain ⟨fuel, rfl⟩ : ∃ k, fuel = k + 1 := ⟨fuel - 1, by omega⟩
    have h0 : w.signal start = none := by simpa using halive 0 (by omega)
    have hrest := ih (start + 1) fuel
      (fun i hi => by have := halive (i + 1) (by omega); rwa [show start + 1 + i = start + (i + 1) by omega])
      (by rwa [show start + 1 + n = start + (n + 1) by omega])
      (by omega)
    simp only [pollLoop, HealthCheck, h0, if_true, hrest, Option.map_some', List.replicate_succ,
      List.flatten_cons]
    simp

/-- C1. In a run of `main` whose resolution gives `proc` and whose start-up check
passes, when the first failing probe of the polling loop is at tick `n` (the `n` probes
before it succeed), whatever the two Slack calls answer, the loop ends, given fuel for
`n + 1` iterations, and `main` returns with status 0. The loop does this: `n` times a
probe and a sleep, the failing probe, one `OpenIMChannel` call and one `PostMessage`
call carrying "Process with pid <Pid> finished", then the line "process finished". So it
makes exactly `n + 1` probes and exactly one dispatch, after the last probe, and nothing
is retried. -/
theorem main_notifies_once (w : World) (flags : Flags) (proc : Process) (n fuel : Nat)
    (hflags : ¬ (flags.pid = -1 ∧ flags.name = []))
    (hres : (resolve w flags).2 = Outcome.ok proc)
    (hstart : w.signal 0 = none)
    (halive : ∀ i, i < n → w.signal (1 + i) = none)
    (hdead : w.signal (1 + n) ≠ none)
    (hfuel : n < fuel) :
    ∃ loop, pollLoop w (SlackMessage.mk flags.user flags.token) flags.interval proc 0 fuel 1
          = some loop
      ∧ main w flags fuel
          = some ((resolve w flags).1 ++ [Event.signal proc.Pid, Event.printProc proc] ++ loop,
              Exit.status 0)
      ∧ loop = (List.replicate n [Event.signal proc.Pid,
              Event.sleep (wrapInt64 (1000000 * wrapInt64 flags.interval))]).flatten
          ++ [Event.signal proc.Pid, Event.openIMChannel flags.token flags.user]
          ++ checkErr (w.openIMChannel flags.token flags.user).2
          ++ [Event.postMessage flags.token (w.openIMChannel flags.token flags.user).1
              ("Process with pid ".toList ++ Itoa proc.Pid ++ " finished".toList)]
          ++ checkErr (w.postMessage flags.token (w.openIMChannel flags.token flags.user).1
              ("Process with pid ".toList ++ Itoa proc.Pid ++ " finished".toList))
          ++ [Event.printf "process finished\n".toList]
      ∧ loop.filter Event.isProbe = List.replicate (n + 1) (Event.signal proc.Pid)
      ∧ loop.filter Event.isSlackCall
          = [Event.openIMChannel flags.token flags.user,
             Event.postMessage flags.token (w.openIMChannel flags.token flags.user).1
              ("Process with pid ".toList ++ Itoa proc.Pid ++ " finished".toList)] := by
  have hloop := pollLoop_trace w (SlackMessage.mk flags.user flags.token) flags.interval proc
    n 1 fuel halive hdead hfuel
  refine ⟨_, hloop, ?_, ?_, ?_, ?_⟩
  · simp only [main, hflags, if_false, hres, HealthCheck, hstart, hloop]
    simp
  · simp [sendSlack, finishedMessage]
  · simp only [List.filter_append, quiet_filter_probe, checkErr_filter_probe, sendSlack]
    simp [List.filter, Event.isProbe, List.replicate_succ', checkErr_filter_probe]
  · simp only [List.filter_append, quiet_filter_slack, checkErr_filter_slack, sendSlack]
    simp [List.filter, Event.isSlackCall, finishedMessage]

/-! ## Instances and evaluations -/

theorem main_notifies_once_witness :
    (resolve (demoWorld (Except.ok 1)) (Flags.mk (-1) "xoxb".toList "U1".toList 100
        "sleep".toList)).2 = Outcome.ok (Process.mk 413 [] "/home/my dir".toList)
      ∧ (∀ i, i < 2 → (demoWorld (Except.ok 1)).signal (1 + i) = none)
      ∧ (demoWorld (Except.ok 1)).signal (1 + 2) ≠ none
      ∧ ∃ loop, main (demoWorld (Except.ok 1))
            (Flags.mk (-1) "xoxb".toList "U1".toList 100 "sleep".toList) 3
            = some ((resolve (demoWorld (Except.ok 1))
                  (Flags.mk (-1) "xoxb".toList "U1".toList 100 "sleep".toList)).1
                ++ [Event.signal 413,
                    Event.printProc (Process.mk 413 [] "/home/my dir".toList)] ++ loop,
                Exit.status 0)
          ∧ loop.filter Event.isProbe = List.replicate (2 + 1) (Event.signal 413)
          ∧ loop.filter Event.isSlackCall
            = [Event.openIMChannel "xoxb".toList "U1".toList,
               Event.postMessage "xoxb".toList "D024BE91L".toList
                "Process with pid 413 finished".toList] :=
  ⟨by rfl, by decide, by decide,
    (main_notifies_once (demoWorld (Except.ok 1))
      (Flags.mk (-1) "xoxb".toList "U1".toList 100 "sleep".toList)
      (Process.mk 413 [] "/home/my dir".toList) 2 3
      (by decide) (by rfl) (by rfl) (by decide) (by decide) (by decide)).imp
      (fun _ h => ⟨h.2.1, h.2.2.2.1, h.2.2.2.2⟩)⟩

/-- C2, evaluated: on an output of `ps -e` with the lines `Sleep 100` and `sleep 200`,
the pattern `sleep` selects both lines (in lower case) and the pattern `Sleep` selects
none, since only the output is put in lower case; ignoring case on both sides, `Sleep`
selects the two lines. -/
theorem candidates_upper_case_pattern :
    candidates (fun r => r) psText "sleep".toList = (sleepLines, none)
      ∧ candidates (fun r => r) psText "Sleep".toList = ([], none)
      ∧ specCandidates (fun r => r) psText "Sleep".toList
        = ["  412 pts/0    00:00:00 Sleep 100".toList,
           "  413 pts/1    00:00:00 sleep 200".toList] :=
  ⟨by rfl, by rfl, by rfl⟩

theorem FindByName_selects_pid_witness :
    FindByName (demoWorld (Except.ok 1)) "sleep".toList
      = ([Event.exec "ps" ["-e".toList]] ++ promptTrace (demoWorld (Except.ok 1)) sleepLines
          ++ (FindByPid (demoWorld (Except.ok 1)) 413).1,
         (FindByPid (demoWorld (Except.ok 1)) 413).2) :=
  FindByName_selects_pid (demoWorld (Except.ok 1)) "sleep".toList psText sleepLines 1
    "  413 pts/1    00:00:00 sleep 200".toList [] "413".toList
    ["pts/1".toList, "00:00:00".toList, "sleep".toList, "200".toList] 413
    rfl (by rfl) rfl (by decide) (by rfl) (by rfl) (Or.inl rfl) (by decide) (by decide)
    (by decide) (by decide) (by decide)

/-- C4, evaluated: with two candidates and the selection 2, and with no candidate and
the selection 0, `FindByName` panics with an index out of range at `names[procNumber]`. -/
theorem FindByName_out_of_range :
    (FindByName (demoWorld (Except.ok 2)) "sleep".toList).2
        = Outcome.fault (Panic.indexOutOfRange 2 2)
      ∧ (FindByName (demoWorld (Except.ok 0)) "zsh".toList).2
        = Outcome.fault (Panic.indexOutOfRange 0 0) :=
  ⟨by rfl, by rfl⟩

/-- C5, evaluated: the input `1abc` is not the text of an integer (`Atoi` rejects it),
yet `Fscanf` reads the integer 1 from it, and `FindByName` takes the second candidate
and calls `FindByPid` on its pid instead of returning `ErrInvalidNumber`. -/
theorem FindByName_reads_integer_prefix :
    Atoi "1abc".toList
        = Except.error (Error.NumError "Atoi" "1abc".toList NumErrKind.ErrSyntax)
      ∧ Fscanf "1abc\n".toList = Except.ok 1
      ∧ (FindByName (demoWorld (Fscanf "1abc\n".toList)) "sleep".toList).2
        = Outcome.ok (Process.mk 413 [] "/home/my dir".toList)
      ∧ Event.findProcess 413
        ∈ (FindByName (demoWorld (Fscanf "1abc\n".toList)) "sleep".toList).1 :=
  ⟨by rfl, by rfl, by rfl, by decide⟩

theorem FindByName_rejects_invalid_input_witness :
    ((∃ err, Atoi (leadingToken "  -1\n".toList) = Except.error err)
        ∨ (∃ k, Atoi (leadingToken "  -1\n".toList) = Except.ok k ∧ k < 0))
      ∧ (FindByName (demoWorld (Fscanf "  -1\n".toList)) "sleep".toList).2
        = Outcome.err ErrInvalidNumber
      ∧ (FindByName (demoWorld (Fscanf "  -1\n".toList)) "sleep".toList).1
        = [Event.exec "ps" ["-e".toList]]
          ++ promptTrace (demoWorld (Fscanf "  -1\n".toList)) sleepLines
      ∧ ∀ e ∈ (FindByName (demoWorld (Fscanf "  -1\n".toList)) "sleep".toList).1,
          e.isFindByPid = false :=
  ⟨Or.inr ⟨-1, by rfl, by decide⟩,
    FindByName_rejects_invalid_input (demoWorld (Fscanf "  -1\n".toList)) "sleep".toList
      psText sleepLines "  -1\n".toList rfl (by rfl) rfl (Or.inr ⟨-1, by rfl, by decide⟩)⟩

/-- C6, evaluated: the pattern `cmd` selects the header of `psText`; with the selection
0 `FindByName` returns the syntax error of `Atoi` on `pid`, not `ErrInvalidNumber`. -/
theorem FindByName_header_line :
    (FindByName (demoWorld (Except.ok 0)) "cmd".toList).2
        = Outcome.err (Error.NumError "Atoi" "pid".toList NumErrKind.ErrSyntax)
      ∧ (FindByName (demoWorld (Except.ok 0)) "cmd".toList).2
        ≠ Outcome.err ErrInvalidNumber :=
  ⟨by rfl, by decide⟩

theorem FindByName_unparsable_pid_witness :
    (FindByName (demoWorld (Except.ok 0)) "cmd".toList).2
        = Outcome.err (Error.NumError "Atoi" "pid".toList NumErrKind.ErrSyntax)
      ∧ (∃ kind, Error.NumError "Atoi" "pid".toList NumErrKind.ErrSyntax
          = Error.NumError "Atoi" "pid".toList kind)
      ∧ Error.NumError "Atoi" "pid".toList NumErrKind.ErrSyntax ≠ ErrInvalidNumber
      ∧ ∀ e ∈ (FindByName (demoWorld (Except.ok 0)) "cmd".toList).1,
          e.isFindByPid = false :=
  FindByName_unparsable_pid (demoWorld (Except.ok 0)) "cmd".toList psText
    ["  pid tty          time cmd".toList] 0 "  pid tty          time cmd".toList
    "pid".toList ["tty".toList, "time".toList, "cmd".toList]
    (Error.NumError "Atoi" "pid".toList NumErrKind.ErrSyntax)
    rfl (by rfl) rfl (by decide) (by rfl) (by rfl) (by rfl)

/-- C7, evaluated: `os.FindProcess` succeeds, `lsof` fails, and `FindByPid` returns the
error of `lsof` instead of a process. -/
theorem FindByPid_lsof_down :
    lsofDown.findProcess 412 = none
      ∧ lsofDown.exec "lsof" ["-p".toList, "412".toList]
        = Except.error (Error.external "exit status 1")
      ∧ (FindByPid lsofDown 412).2 = Outcome.err (Error.external "exit status 1") :=
  ⟨rfl, rfl, by rfl⟩

theorem FindByPid_lsof_error_witness :
    FindByPid lsofDown 412
      = ([Event.findProcess 412, Event.exec "lsof" ["-p".toList, Itoa 412]],
         Outcome.err (Error.external "exit status 1")) :=
  FindByPid_lsof_error lsofDown 412 (Error.external "exit status 1") rfl rfl

/-- C8, evaluated: `OpenIMChannel` fails, `PostMessage` succeeds, and `sendSlack`
returns no error. -/
theorem sendSlack_open_failure_ignored :
    (imDown.openIMChannel "xoxb".toList "U1".toList).2
        = some (Error.external "user_not_found")
      ∧ (sendSlack imDown (SlackMessage.mk "U1".toList "xoxb".toList)
          "Process with pid 412 finished".toList).2 = none :=
  ⟨rfl, rfl⟩

theorem main_startup_failure_witness :
    (∃ err, (resolve lsofDown (Flags.mk 412 [] [] 100 [])).2 = Outcome.err err)
      ∧ ∃ tr last, (∀ fuel, main lsofDown (Flags.mk 412 [] [] 100 []) fuel
            = some (tr ++ [last], Exit.status 1))
          ∧ (last = Event.fatalf "pid or name flag not specified"
              ∨ ∃ err, last = Event.fatalln err)
          ∧ (tr ++ [last]).filter Event.isSlackCall = []
          ∧ (tr ++ [last]).filter Event.isSleep = []
          ∧ (tr ++ [last]).filter Event.isPrintProc = []
          ∧ ((tr ++ [last]).filter Event.isProbe).length ≤ 1 :=
  ⟨⟨Error.external "exit status 1", by rfl⟩,
    main_startup_failure lsofDown (Flags.mk 412 [] [] 100 [])
      (Or.inr (Or.inl ⟨Error.external "exit status 1", by rfl⟩))⟩

theorem FindByPid_cwd_witness :
    (∀ line ∈ (scanLines lsofText).1, 4 ≤ (FieldsFunc line IsSpace).length)
      ∧ scanCwd (scanLines lsofText).1 [] = Except.ok "/home/my dir".toList
      ∧ (FindByPid (demoWorld (Except.ok 0)) 412).2
          = Outcome.ok (Process.mk 412 [] "/home/my dir".toList) :=
  ⟨by decide,
    (FindByPid_cwd (demoWorld (Except.ok 0)) 412 lsofText rfl rfl
      (by decide) (by decide)).1.trans (by rfl),
    (FindByPid_cwd (demoWorld (Except.ok 0)) 412 lsofText rfl rfl
      (by decide) (by decide)).2.1.trans (by rfl)⟩

end ProcessWatcher
